import Mathlib

/-!
Verification development for the endless-runner core
(`src/js/collision.js` player/obstacle classes).

The JavaScript runtime core is embedded shallowly over ℚ: every numeric
constant of the source (`0.15`, `0.005`, `0.3`, …) is the corresponding
rational, state-mutating methods become state-passing functions, and the
only nondeterministic inputs (the `Math.random()` draws for spawn
intervals, obstacle kinds and lanes) are threaded as explicit arguments.

The single piece of the source that is not reproduced verbatim is
`THREE.Box3().setFromObject(mesh)`: computing a world-space bounding box
of a composite rotated mesh is 3D trigonometry whose exact value no
verified property depends on.  It is abstracted as a `Geom` record of
box-producing functions (one for the player mesh pose, one per obstacle
kind and position); everything the source does *with* that raw box
(the 0.8 shrink of the player collider, the per-kind collider scales,
the axis-by-axis `intersectsBox` test) is embedded exactly.
-/

/-- A 3-component vector of rationals (embeds `THREE.Vector3`). -/
structure Vec3 where
  x : ℚ
  y : ℚ
  z : ℚ
deriving DecidableEq

/-- An axis-aligned box (embeds `THREE.Box3`), given by its min and max corners. -/
structure Box3 where
  min : Vec3
  max : Vec3
deriving DecidableEq

/-- `Box3.getSize`: component-wise extent of the box. -/
def Box3.size (b : Box3) : Vec3 :=
  ⟨b.max.x - b.min.x, b.max.y - b.min.y, b.max.z - b.min.z⟩

/-- `Box3.getCenter`: component-wise midpoint of the box. -/
def Box3.center (b : Box3) : Vec3 :=
  ⟨(b.min.x + b.max.x) / 2, (b.min.y + b.max.y) / 2, (b.min.z + b.max.z) / 2⟩

/-- Rebuild a box around its own center with each axis extent multiplied by
the given per-axis factor — the `center ± size * scale / 2` construction that
`Player.updateCollider`, `ObstacleManager.updateObstacleCollider` and
`CollisionDetector.createBoundingBox` all perform. -/
def Box3.scaled (b : Box3) (sx sy sz : ℚ) : Box3 :=
  let s := b.size
  let c := b.center
  ⟨⟨c.x - s.x * sx / 2, c.y - s.y * sy / 2, c.z - s.z * sz / 2⟩,
   ⟨c.x + s.x * sx / 2, c.y + s.y * sy / 2, c.z + s.z * sz / 2⟩⟩

/-- `THREE.Box3.intersectsBox`: the boxes intersect unless some axis shows a
separating gap (`box.max < this.min` or `box.min > this.max` on that axis);
touching boxes count as intersecting. -/
def Box3.intersectsBox (a b : Box3) : Bool :=
  !(decide (b.max.x < a.min.x) || decide (b.min.x > a.max.x)) &&
  !(decide (b.max.y < a.min.y) || decide (b.min.y > a.max.y)) &&
  !(decide (b.max.z < a.min.z) || decide (b.min.z > a.max.z))

/-- The pose data the player's world-space mesh bounding box depends on:
group position, group tilt (`rotation.z`) and the leg/arm swing angle that
drives every limb rotation. -/
structure PlayerPose where
  posX : ℚ
  posY : ℚ
  posZ : ℚ
  rotZ : ℚ
  legRot : ℚ
deriving DecidableEq

/-- Obstacle kinds (`obstacleTypes = ['rock','log','tree','puddle','barrier']`). -/
inductive OKind where
  | rock
  | log
  | tree
  | puddle
  | barrier
deriving DecidableEq

/-- Per-kind collider scale assigned by the `switch` in
`ObstacleManager.createObstacle`. -/
def colliderScale : OKind → ℚ × ℚ × ℚ
  | .rock => (9/10, 9/10, 9/10)
  | .log => (9/10, 9/10, 12/10)
  | .tree => (7/10, 9/10, 7/10)
  | .puddle => (12/10, 5/10, 12/10)
  | .barrier => (11/10, 9/10, 8/10)

/-- Abstraction of `THREE.Box3().setFromObject(mesh)`: the raw world-space
bounding box of the player mesh as a function of its pose, and of each
obstacle mesh as a function of its kind and its (x, z) position (an
obstacle's y position is fixed at creation and never changes). -/
structure Geom where
  playerBox : PlayerPose → Box3
  obstacleBox : OKind → ℚ → ℚ → Box3

/- Player numeric constants (`Player` constructor). -/

/-- `this.jumpForce = 0.15`. -/
def jumpForce : ℚ := 15/100

/-- `this.gravity = 0.005`. -/
def gravity : ℚ := 5/1000

/-- `this.lateralSpeed = 0.3`. -/
def lateralSpeed : ℚ := 3/10

/-- `this.maxLateralPosition = 3`. -/
def maxLateralPosition : ℚ := 3

/-- `this.legRotationSpeed = 0.1`. -/
def legRotationSpeed : ℚ := 1/10

/-- `this.maxLegRotation = Math.PI / 4`; modeled by a rational approximation
of the double `0.7853981633974483` — no verified property depends on its
value, only on the oscillator structure around it. -/
def maxLegRotation : ℚ := 7853981633974483/10000000000000000

/-- Player state (`Player` class fields that ever change, plus `hasMesh`
recording whether `this.mesh` is non-null).  `posX/posY/posZ` are
`mesh.position`, `rotZ` is `mesh.rotation.z`; the home position
`this.position` is the constant `(0, 0, 5)` and is inlined as such.
`jumpVelocity` is undefined in the source until the first `jump()`; it is
given the unobservable placeholder value 0 before that. -/
structure Player where
  hasMesh : Bool
  isJumping : Bool
  isFalling : Bool
  posX : ℚ
  posY : ℚ
  posZ : ℚ
  rotZ : ℚ
  jumpVelocity : ℚ
  currentLegRotation : ℚ
  legRotationDirection : ℚ
  collider : Option Box3
deriving DecidableEq

/-- The pose fields of the player state. -/
def Player.pose (p : Player) : PlayerPose :=
  ⟨p.posX, p.posY, p.posZ, p.rotZ, p.currentLegRotation⟩

/-- The box `Player.updateCollider` computes: raw mesh box shrunk by the
fixed factor 0.8 on each axis. -/
def playerColliderBox (g : Geom) (p : Player) : Box3 :=
  (g.playerBox p.pose).scaled (8/10) (8/10) (8/10)

/-- `Player.updateCollider`: recompute `this.collider` from the mesh. -/
def Player.updateCollider (g : Geom) (p : Player) : Player :=
  { p with collider := some (playerColliderBox g p) }

/-- `Player.jump`: start a jump only when neither jumping nor falling. -/
def Player.jump (p : Player) : Player :=
  if !p.isJumping && !p.isFalling then
    { p with isJumping := true, jumpVelocity := jumpForce }
  else
    p

/-- `Player.returnToCenter`: tilt decays toward 0 by 0.01 per call, snapping
to 0 inside `[-0.01, 0.01]`. -/
def Player.returnToCenter (p : Player) : Player :=
  if p.rotZ > 1/100 then
    { p with rotZ := p.rotZ - 1/100 }
  else if p.rotZ < -(1/100) then
    { p with rotZ := p.rotZ + 1/100 }
  else
    { p with rotZ := 0 }

/-- `Player.animateRunning`: bounded leg/arm oscillator; the limb mesh
rotations themselves are pure functions of `currentLegRotation`. -/
def Player.animateRunning (p : Player) : Player :=
  let r := p.currentLegRotation + legRotationSpeed * p.legRotationDirection
  if |r| ≥ maxLegRotation then
    { p with currentLegRotation := r, legRotationDirection := -p.legRotationDirection }
  else
    { p with currentLegRotation := r }

/-- `Player.update`: one tick — gravity integration with the
ascending→falling and falling→landed transitions (landing clamps
`mesh.position.y` to the home height 0), else the running animation;
then tilt decay, then collider refresh. -/
def Player.update (g : Geom) (p : Player) : Player :=
  let p1 :=
    if p.isJumping || p.isFalling then
      let pa := { p with jumpVelocity := p.jumpVelocity - gravity,
                         posY := p.posY + (p.jumpVelocity - gravity) }
      let pb :=
        if pa.isJumping && decide (pa.jumpVelocity ≤ 0) then
          { pa with isJumping := false, isFalling := true }
        else pa
      if pb.isFalling && decide (pb.posY ≤ 0) then
        { pb with posY := 0, isFalling := false }
      else pb
    else
      p.animateRunning
  Player.updateCollider g p1.returnToCenter

/-- `Player.moveLeft`: step left only when strictly right of the left edge;
tilt toward +0.2 capped, collider refreshed. -/
def Player.moveLeft (g : Geom) (p : Player) : Player :=
  if p.posX > -maxLateralPosition then
    Player.updateCollider g
      { p with posX := p.posX - lateralSpeed,
               rotZ := min (p.rotZ + 5/100) (2/10) }
  else
    p

/-- `Player.moveRight`: mirror image of `moveLeft`. -/
def Player.moveRight (g : Geom) (p : Player) : Player :=
  if p.posX < maxLateralPosition then
    Player.updateCollider g
      { p with posX := p.posX + lateralSpeed,
               rotZ := max (p.rotZ - 5/100) (-(2/10)) }
  else
    p

/-- `Player.reset`: back to home position, grounded, upright; collider
refreshed.  (`currentLegRotation`, `legRotationDirection` and
`jumpVelocity` are not reset by the source.) -/
def Player.reset (g : Geom) (p : Player) : Player :=
  Player.updateCollider g
    { p with isJumping := false, isFalling := false,
             posX := 0, posY := 0, posZ := 5, rotZ := 0 }

/-- The state `createPlayer` leaves behind: mesh built at the home position
`(0, 0, 5)` with default rotations, then `updateCollider`. -/
def player0 (g : Geom) : Player :=
  Player.updateCollider g
    { hasMesh := true, isJumping := false, isFalling := false,
      posX := 0, posY := 0, posZ := 5, rotZ := 0,
      jumpVelocity := 0, currentLegRotation := 0, legRotationDirection := 1,
      collider := none }

/-- The operations of the player's public interface. -/
inductive POp where
  | jump
  | update
  | moveLeft
  | moveRight
  | reset
deriving DecidableEq

/-- Apply one player operation. -/
def applyPOp (g : Geom) : POp → Player → Player
  | .jump, p => p.jump
  | .update, p => p.update g
  | .moveLeft, p => p.moveLeft g
  | .moveRight, p => p.moveRight g
  | .reset, p => p.reset g

/-- Run a sequence of player operations from a given state. -/
def runPOps (g : Geom) (ops : List POp) (p : Player) : Player :=
  ops.foldl (fun s op => applyPOp g op s) p

/-- One obstacle record (`createObstacle`'s object literal).  `oid` is a
ghost identifier standing in for JavaScript object identity, assigned at
creation, never changed; it lets pool/active membership be stated.  `posX`
and `posZ` are `mesh.position.x/z` (the y component is fixed at creation
and folded into `Geom.obstacleBox`). -/
structure Obstacle where
  kind : OKind
  oid : ℕ
  posX : ℚ
  posZ : ℚ
  visible : Bool
  active : Bool
  collider : Option Box3
deriving DecidableEq

/-- A fresh record as `createObstacle` builds it: mesh hidden at the local
origin, inactive, no collider. -/
def mkObstacle (k : OKind) (oid : ℕ) : Obstacle :=
  ⟨k, oid, 0, 0, false, false, none⟩

/-- `ObstacleManager.updateObstacleCollider`: raw mesh box scaled by the
kind's collider-scale triple. -/
def updateObstacleCollider (g : Geom) (o : Obstacle) : Obstacle :=
  let s := colliderScale o.kind
  let b := (g.obstacleBox o.kind o.posX o.posZ).scaled s.1 s.2.1 s.2.2
  { o with collider := some b }

/-- The random draws one `ObstacleManager` call may consume: an obstacle
kind (`getRandomObstacleType`, used only when the pool is empty), a lane in
`{-1, 0, 1}` (`Math.floor(Math.random()*3) - 1`), and a spawn-interval
sample (`getRandomSpawnInterval`). -/
structure SpawnRnd where
  kind : OKind
  lane : ℤ
  interval : ℚ
deriving DecidableEq

/- ObstacleManager numeric constants. -/

/-- `this.spawnDistance = 80`. -/
def spawnDistance : ℚ := 80

/-- `this.initialSpeed = 0.2` (also the initial `this.speed`). -/
def initialSpeed : ℚ := 2/10

/-- `this.speedIncreaseRate = 0.00001`. -/
def speedIncreaseRate : ℚ := 1/100000

/-- Obstacle-manager state (`ObstacleManager` fields that ever change).
`totalCreated` is a ghost counter of records ever built by
`createObstacle`, used to assign `oid`s and to state pool conservation. -/
structure ObstacleManager where
  activeObstacles : List Obstacle
  obstaclePool : List Obstacle
  nextSpawnTime : ℚ
  timeSinceLastSpawn : ℚ
  speed : ℚ
  totalCreated : ℕ
deriving DecidableEq

/-- `ObstacleManager.spawnObstacle`: `pop()` a record off the end of the
pool, or create a fresh one; place it `spawnDistance` ahead in a random
lane, activate it, compute its collider, `push` it onto the active list. -/
def ObstacleManager.spawnObstacle (g : Geom) (r : SpawnRnd) (m : ObstacleManager) :
    ObstacleManager :=
  let (ob, pool1, total1) :=
    match m.obstaclePool.getLast? with
    | some ob => (ob, m.obstaclePool.dropLast, m.totalCreated)
    | none => (mkObstacle r.kind m.totalCreated, m.obstaclePool, m.totalCreated + 1)
  let ob := updateObstacleCollider g
    { ob with posZ := -spawnDistance, posX := (r.lane : ℚ) * 2,
              visible := true, active := true }
  { m with obstaclePool := pool1, totalCreated := total1,
           activeObstacles := m.activeObstacles ++ [ob] }

/-- The backward index loop at the end of `ObstacleManager.update`: each
active obstacle advances by `speed`, its collider is recomputed, and those
past `z > 10` are deactivated and moved to the pool.  Returns the surviving
active list (original order) and the records to append to the pool (the
loop runs from the highest index down, so later list entries are pushed
first). -/
def sweepActive (g : Geom) (speed : ℚ) : List Obstacle → List Obstacle × List Obstacle
  | [] => ([], [])
  | o :: rest =>
    let (act, pooled) := sweepActive g speed rest
    let o1 := updateObstacleCollider g { o with posZ := o.posZ + speed }
    if o1.posZ > 10 then
      (act, pooled ++ [{ o1 with visible := false, active := false }])
    else
      (o1 :: act, pooled)

/-- `ObstacleManager.update(deltaTime, score)`: recompute speed from score,
accumulate the spawn timer, spawn (and resample the interval) when due,
then sweep the active list. -/
def ObstacleManager.update (g : Geom) (deltaTime score : ℚ) (r : SpawnRnd)
    (m : ObstacleManager) : ObstacleManager :=
  let m1 := { m with speed := initialSpeed + score * speedIncreaseRate,
                     timeSinceLastSpawn := m.timeSinceLastSpawn + deltaTime }
  let m2 :=
    if m1.timeSinceLastSpawn ≥ m1.nextSpawnTime then
      { m1.spawnObstacle g r with timeSinceLastSpawn := 0, nextSpawnTime := r.interval }
    else
      m1
  let swept := sweepActive g m2.speed m2.activeObstacles
  { m2 with activeObstacles := swept.1, obstaclePool := m2.obstaclePool ++ swept.2 }

/-- `ObstacleManager.reset`: hide and deactivate every active obstacle and
push it to the pool (forward order), clear the active list, reset speed and
the spawn timer, resample the interval. -/
def ObstacleManager.reset (interval : ℚ) (m : ObstacleManager) : ObstacleManager :=
  { m with
    obstaclePool :=
      m.obstaclePool ++ m.activeObstacles.map
        (fun o => { o with visible := false, active := false }),
    activeObstacles := [],
    speed := initialSpeed,
    timeSinceLastSpawn := 0,
    nextSpawnTime := interval }

/-- The state the `ObstacleManager` constructor leaves behind:
`preloadObstacles(10)` fills the pool with ten records of the given random
kinds, the spawn interval is a random sample, speed starts at base. -/
def manager0 (kinds : ℕ → OKind) (interval0 : ℚ) : ObstacleManager :=
  { activeObstacles := [],
    obstaclePool := (List.range 10).map (fun n => mkObstacle (kinds n) n),
    nextSpawnTime := interval0,
    timeSinceLastSpawn := 0,
    speed := initialSpeed,
    totalCreated := 10 }

/-- The operations of the obstacle manager's public interface, each carrying
the random draws it may consume. -/
inductive MOp where
  | update (deltaTime score : ℚ) (r : SpawnRnd)
  | reset (interval : ℚ)
deriving DecidableEq

/-- Apply one manager operation. -/
def applyMOp (g : Geom) : MOp → ObstacleManager → ObstacleManager
  | .update dt score r, m => m.update g dt score r
  | .reset i, m => m.reset i

/-- Run a sequence of manager operations from a given state. -/
def runMOps (g : Geom) (ops : List MOp) (m : ObstacleManager) : ObstacleManager :=
  ops.foldl (fun s op => applyMOp g op s) m

/-- `CollisionDetector.checkObstacleCollision`: obstacles without a collider
never collide; otherwise axis-aligned box intersection against the player's
collider (which the guard and recompute in `checkCollisions` ensure is the
non-null box passed here). -/
def CollisionDetector.checkObstacleCollision (playerCollider : Box3) (o : Obstacle) :
    Bool :=
  match o.collider with
  | none => false
  | some ob => playerCollider.intersectsBox ob

/-- `CollisionDetector.checkCollisions`: false when the player has no mesh
or no collider yet; otherwise refresh the player's collider (the one
mutation the call performs, returned here as the second component) and scan
the active list for the first intersecting obstacle.  The obstacle manager
is only read. -/
def CollisionDetector.checkCollisions (g : Geom) (p : Player) (m : ObstacleManager) :
    Bool × Player :=
  if !p.hasMesh || p.collider.isNone then
    (false, p)
  else
    let p1 := p.updateCollider g
    (m.activeObstacles.any
      (fun o => CollisionDetector.checkObstacleCollision (playerColliderBox g p1) o),
     p1)

/-- A concrete instance of the mesh-box abstraction, used to evaluate the
development on closed inputs: the player occupies a 2×3×2 box above its
position, every obstacle a 2×2×2 box above its position. -/
def geomSample : Geom :=
  { playerBox := fun pose =>
      ⟨⟨pose.posX - 1, pose.posY, pose.posZ - 1⟩,
       ⟨pose.posX + 1, pose.posY + 3, pose.posZ + 1⟩⟩,
    obstacleBox := fun _ x z =>
      ⟨⟨x - 1, 0, z - 1⟩, ⟨x + 1, 2, z + 1⟩⟩ }

/-- The vertical-motion fields of the player state: the jump/fall flags,
the height `mesh.position.y` and the jump velocity.  `Player.update` acts
on them independently of everything else. -/
structure Vert where
  isJumping : Bool
  isFalling : Bool
  posY : ℚ
  vel : ℚ
deriving DecidableEq

/-- Project a player state to its vertical-motion fields. -/
def Player.vert (p : Player) : Vert :=
  ⟨p.isJumping, p.isFalling, p.posY, p.jumpVelocity⟩

/-- The action of one `Player.update` on the vertical-motion fields alone. -/
def vertStep (s : Vert) : Vert :=
  if s.isJumping || s.isFalling then
    let sa := { s with vel := s.vel - gravity, posY := s.posY + (s.vel - gravity) }
    let sb :=
      if sa.isJumping && decide (sa.vel ≤ 0) then
        { sa with isJumping := false, isFalling := true }
      else sa
    if sb.isFalling && decide (sb.posY ≤ 0) then
      { sb with posY := 0, isFalling := false }
    else sb
  else s

theorem updateCollider_vert (g : Geom) (p : Player) :
    (p.updateCollider g).vert = p.vert := rfl

theorem returnToCenter_vert (p : Player) :
    p.returnToCenter.vert = p.vert := by
  unfold Player.returnToCenter
  split_ifs <;> rfl

theorem animateRunning_vert (p : Player) :
    p.animateRunning.vert = p.vert := by
  simp only [Player.animateRunning]
  split_ifs <;> rfl

/-- `Player.update` acts on the vertical-motion fields exactly as
`vertStep`, for every geometry and every player state. -/
theorem update_vert (g : Geom) (p : Player) :
    (p.update g).vert = vertStep p.vert := by
  unfold Player.update vertStep
  rw [updateCollider_vert, returnToCenter_vert]
  by_cases hj : p.isJumping <;> by_cases hf : p.isFalling <;>
    simp only [Player.vert, hj, hf, Bool.false_or, Bool.or_false,
      Bool.or_self, Bool.true_or, Bool.or_true, if_true, if_false] <;>
    first
      | (have h := animateRunning_vert p
         simp only [Player.vert, Vert.mk.injEq] at h
         simp_all
         done)
      | (split_ifs <;> simp_all [Player.vert])

/-- Iterated form of `update_vert`. -/
theorem update_iterate_vert (g : Geom) (n : ℕ) (p : Player) :
    ((Player.update g)^[n] p).vert = vertStep^[n] p.vert := by
  induction n generalizing p with
  | zero => rfl
  | succ k ih =>
    rw [Function.iterate_succ_apply, Function.iterate_succ_apply, ih, update_vert]

theorem vertStep_grounded (y v : ℚ) :
    vertStep ⟨false, false, y, v⟩ = ⟨false, false, y, v⟩ := rfl

theorem vertStep_ascend (y v : ℚ) (h : ¬(v - gravity ≤ 0)) :
    vertStep ⟨true, false, y, v⟩ = ⟨true, false, y + (v - gravity), v - gravity⟩ := by
  simp [vertStep, h]

theorem vertStep_apex (y v : ℚ) (h : v - gravity ≤ 0) (h2 : ¬(y + (v - gravity) ≤ 0)) :
    vertStep ⟨true, false, y, v⟩ = ⟨false, true, y + (v - gravity), v - gravity⟩ := by
  simp [vertStep, h, h2]

theorem vertStep_fall (y v : ℚ) (h2 : ¬(y + (v - gravity) ≤ 0)) :
    vertStep ⟨false, true, y, v⟩ = ⟨false, true, y + (v - gravity), v - gravity⟩ := by
  simp [vertStep, h2]

theorem vertStep_land (y v : ℚ) (h2 : y + (v - gravity) ≤ 0) :
    vertStep ⟨false, true, y, v⟩ = ⟨false, false, 0, v - gravity⟩ := by
  simp [vertStep, h2]

/-- Height of the jump arc after `n` update steps:
`n * jumpForce - (1 + 2 + ... + n) * gravity`. -/
def Yarc (n : ℕ) : ℚ :=
  (n : ℚ) * jumpForce - ((n : ℚ) * ((n : ℚ) + 1) / 2) * gravity

theorem Yarc_closed (n : ℕ) : Yarc n = (n : ℚ) * (59 - (n : ℚ)) / 400 := by
  unfold Yarc jumpForce gravity
  ring

/-- The whole jump trajectory in closed form: ascending for the first 30
steps, descending through step 58, grounded at height 0 from step 59 on. -/
def arcState (n : ℕ) : Vert :=
  if n < 30 then ⟨true, false, Yarc n, jumpForce - (n : ℚ) * gravity⟩
  else if n < 59 then ⟨false, true, Yarc n, jumpForce - (n : ℚ) * gravity⟩
  else ⟨false, false, 0, jumpForce - 59 * gravity⟩

theorem Yarc_succ (k : ℕ) :
    Yarc (k + 1) = Yarc k + ((jumpForce - (k : ℚ) * gravity) - gravity) := by
  unfold Yarc
  push_cast
  ring

theorem cast_succ_vel (k : ℕ) :
    jumpForce - ((k + 1 : ℕ) : ℚ) * gravity = (jumpForce - (k : ℚ) * gravity) - gravity := by
  push_cast
  ring

/-- The iterated vertical step from a freshly started jump follows the
closed-form trajectory. -/
theorem vertStep_arc (n : ℕ) :
    vertStep^[n] ⟨true, false, 0, jumpForce⟩ = arcState n := by
  induction n with
  | zero =>
    simp [arcState, Yarc]
  | succ k ih =>
    rw [Function.iterate_succ_apply', ih]
    by_cases h30 : k < 30
    · by_cases h29 : k + 1 < 30
      · have hk : (k : ℚ) ≤ 28 := by exact_mod_cast (by omega : k ≤ 28)
        have hv : ¬((jumpForce - (k : ℚ) * gravity) - gravity ≤ 0) := by
          unfold jumpForce gravity
          intro hle
          nlinarith
        rw [arcState, if_pos h30, vertStep_ascend _ _ hv, arcState, if_pos h29,
          Yarc_succ, cast_succ_vel]
      · have hkq : (k : ℚ) = 29 := by exact_mod_cast (by omega : k = 29)
        have hv : (jumpForce - (k : ℚ) * gravity) - gravity ≤ 0 := by
          rw [hkq]
          unfold jumpForce gravity
          norm_num
        have hy : ¬(Yarc k + ((jumpForce - (k : ℚ) * gravity) - gravity) ≤ 0) := by
          rw [Yarc_closed, hkq]
          unfold jumpForce gravity
          norm_num
        rw [arcState, if_pos h30, vertStep_apex _ _ hv hy, arcState,
          if_neg (by omega : ¬(k + 1 < 30)), if_pos (by omega : k + 1 < 59),
          Yarc_succ, cast_succ_vel]
    · by_cases h59 : k < 59
      · by_cases h58 : k + 1 < 59
        · have hkl : (30 : ℚ) ≤ (k : ℚ) := by exact_mod_cast (by omega : 30 ≤ k)
          have hkh : (k : ℚ) ≤ 57 := by exact_mod_cast (by omega : k ≤ 57)
          have hy : ¬(Yarc k + ((jumpForce - (k : ℚ) * gravity) - gravity) ≤ 0) := by
            rw [Yarc_closed]
            unfold jumpForce gravity
            intro hle
            nlinarith
          rw [arcState, if_neg h30, if_pos h59, vertStep_fall _ _ hy, arcState,
            if_neg (by omega : ¬(k + 1 < 30)), if_pos h58, Yarc_succ, cast_succ_vel]
        · have hkq : (k : ℚ) = 58 := by exact_mod_cast (by omega : k = 58)
          have hy : Yarc k + ((jumpForce - (k : ℚ) * gravity) - gravity) ≤ 0 := by
            rw [Yarc_closed, hkq]
            unfold jumpForce gravity
            norm_num
          rw [arcState, if_neg h30, if_pos h59, vertStep_land _ _ hy, arcState,
            if_neg (by omega : ¬(k + 1 < 30)), if_neg (by omega : ¬(k + 1 < 59))]
          simp only [Vert.mk.injEq, true_and, and_true, eq_self_iff_true]
          rw [hkq]
          ring
      · rw [arcState, if_neg h30, if_neg h59, vertStep_grounded, arcState,
          if_neg (by omega : ¬(k + 1 < 30)), if_neg (by omega : ¬(k + 1 < 59))]

theorem update_iter_arc (g : Geom) (p : Player)
    (h1 : p.isJumping = false) (h2 : p.isFalling = false) (hy : p.posY = 0) (n : ℕ) :
    ((Player.update g)^[n] p.jump).vert = arcState n := by
  rw [update_iterate_vert]
  have hj : p.jump.vert = ⟨true, false, 0, jumpForce⟩ := by
    simp [Player.jump, Player.vert, h1, h2, hy]
  rw [hj, vertStep_arc]

/-- Claim C3: from a grounded state at height 0, `jump()` followed by
repeated `update()` ascends for exactly `jumpForce / gravity = 30` steps,
stays airborne through step 58, is back grounded at height exactly 0 from
step 59 on, and the height after every update is never negative. -/
theorem C3_jump_arc_determinism (g : Geom) (p : Player)
    (h1 : p.isJumping = false) (h2 : p.isFalling = false) (hy : p.posY = 0) :
    jumpForce / gravity = 30 ∧
    (∀ n < 30, ((Player.update g)^[n] p.jump).isJumping = true ∧
               ((Player.update g)^[n] p.jump).isFalling = false) ∧
    (((Player.update g)^[30] p.jump).isJumping = false ∧
     ((Player.update g)^[30] p.jump).isFalling = true) ∧
    (∀ n < 59, ((Player.update g)^[n] p.jump).isJumping = true ∨
               ((Player.update g)^[n] p.jump).isFalling = true) ∧
    (∀ n, 59 ≤ n → ((Player.update g)^[n] p.jump).posY = 0 ∧
                   ((Player.update g)^[n] p.jump).isJumping = false ∧
                   ((Player.update g)^[n] p.jump).isFalling = false) ∧
    (∀ n, 0 ≤ ((Player.update g)^[n] p.jump).posY) := by
  have hJ : ∀ n, ((Player.update g)^[n] p.jump).isJumping = (arcState n).isJumping :=
    fun n => congrArg Vert.isJumping (update_iter_arc g p h1 h2 hy n)
  have hF : ∀ n, ((Player.update g)^[n] p.jump).isFalling = (arcState n).isFalling :=
    fun n => congrArg Vert.isFalling (update_iter_arc g p h1 h2 hy n)
  have hY : ∀ n, ((Player.update g)^[n] p.jump).posY = (arcState n).posY :=
    fun n => congrArg Vert.posY (update_iter_arc g p h1 h2 hy n)
  refine ⟨by norm_num [jumpForce, gravity], ?_, ?_, ?_, ?_, ?_⟩
  · intro n hn
    rw [hJ, hF]
    simp [arcState, hn]
  · rw [hJ, hF]
    simp [arcState]
  · intro n hn
    by_cases hn30 : n < 30
    · left
      rw [hJ]
      simp [arcState, hn30]
    · right
      rw [hF]
      simp [arcState, hn30, hn]
  · intro n hn
    rw [hY, hJ, hF, arcState, if_neg (by omega : ¬(n < 30)), if_neg (by omega : ¬(n < 59))]
    exact ⟨rfl, rfl, rfl⟩
  · intro n
    rw [hY]
    unfold arcState
    split_ifs with ha hb
    · rw [Yarc_closed]
      have h0 : (0 : ℚ) ≤ (n : ℚ) := Nat.cast_nonneg n
      have hle : (n : ℚ) ≤ 58 := by exact_mod_cast (by omega : n ≤ 58)
      exact div_nonneg (mul_nonneg h0 (by linarith)) (by norm_num)
    · rw [Yarc_closed]
      have h0 : (0 : ℚ) ≤ (n : ℚ) := Nat.cast_nonneg n
      have hle : (n : ℚ) ≤ 58 := by exact_mod_cast (by omega : n ≤ 58)
      exact div_nonneg (mul_nonneg h0 (by linarith)) (by norm_num)
    · exact le_refl 0

/-- Witness for C3 at the constructed player and the sample geometry. -/
theorem C3_jump_arc_determinism_witness :
    ((Player.update geomSample)^[59] (player0 geomSample).jump).posY = 0 ∧
    ((Player.update geomSample)^[30] (player0 geomSample).jump).isFalling = true := by
  have h := C3_jump_arc_determinism geomSample (player0 geomSample) rfl rfl rfl
  exact ⟨(h.2.2.2.2.1 59 le_rfl).1, h.2.2.1.2⟩

/-- A concrete random draw for closed evaluations. -/
def rndSample : SpawnRnd := ⟨OKind.rock, 0, 2⟩

/-- Claim C6: `jump()` from the grounded phase (neither jumping nor falling)
sets the ascending flag and the jump velocity to `jumpForce` and changes
nothing else; from any airborne phase it changes no field at all. -/
theorem C6_jump_contract (p : Player) :
    (p.isJumping = false → p.isFalling = false →
      p.jump = { p with isJumping := true, jumpVelocity := jumpForce }) ∧
    (p.isJumping = true ∨ p.isFalling = true → p.jump = p) := by
  constructor
  · intro h1 h2
    simp [Player.jump, h1, h2]
  · intro h
    rcases h with h | h <;> simp [Player.jump, h]

/-- Witness for C6: the constructed player is grounded, so `jump()` sets
exactly the ascending flag and the jump velocity. -/
theorem C6_jump_contract_witness :
    (player0 geomSample).jump
      = { player0 geomSample with isJumping := true, jumpVelocity := jumpForce } :=
  (C6_jump_contract (player0 geomSample)).1 rfl rfl

/-- Claim C8: `reset()` is idempotent, on the player (exactly) and on the
obstacle manager (for the same supplied interval draw, which the outer call
overwrites in either case). -/
theorem C8_reset_idempotent (g : Geom) (p : Player) (m : ObstacleManager) (i i' : ℚ) :
    Player.reset g (Player.reset g p) = Player.reset g p ∧
    ObstacleManager.reset i (ObstacleManager.reset i' m) = ObstacleManager.reset i m := by
  constructor
  · simp [Player.reset, Player.updateCollider, playerColliderBox, Player.pose]
  · simp [ObstacleManager.reset]

theorem update_speed (g : Geom) (dt score : ℚ) (r : SpawnRnd) (m : ObstacleManager) :
    (m.update g dt score r).speed = initialSpeed + score * speedIncreaseRate := by
  simp only [ObstacleManager.update, ObstacleManager.spawnObstacle]
  split_ifs <;> rfl

/-- Claim C7: after every `update(dt, score)` the speed equals
`baseSpeed + score * speedIncreaseRate` with `baseSpeed = 0.2` and
`speedIncreaseRate = 0.00001`; it is non-decreasing in the score and equals
the base speed at score 0. -/
theorem C7_speed_ramp (g : Geom) (dt score : ℚ) (r : SpawnRnd) (m : ObstacleManager) :
    (m.update g dt score r).speed = initialSpeed + score * speedIncreaseRate ∧
    initialSpeed = 2/10 ∧
    speedIncreaseRate = 1/100000 ∧
    (m.update g dt 0 r).speed = initialSpeed ∧
    (∀ s1 s2 : ℚ, 0 ≤ s1 → s1 ≤ s2 →
      (m.update g dt s1 r).speed ≤ (m.update g dt s2 r).speed) := by
  refine ⟨update_speed g dt score r m, rfl, rfl, ?_, ?_⟩
  · rw [update_speed]
    ring
  · intro s1 s2 _ h12
    rw [update_speed, update_speed]
    have : s1 * speedIncreaseRate ≤ s2 * speedIncreaseRate := by
      apply mul_le_mul_of_nonneg_right h12
      norm_num [speedIncreaseRate]
    linarith

/-- Witness for C7 at concrete inputs. -/
theorem C7_speed_ramp_witness :
    ((manager0 (fun _ => OKind.rock) 2).update geomSample 1 0 rndSample).speed
        = initialSpeed ∧
    ((manager0 (fun _ => OKind.rock) 2).update geomSample 1 0 rndSample).speed
        ≤ ((manager0 (fun _ => OKind.rock) 2).update geomSample 1 5 rndSample).speed := by
  have h := C7_speed_ramp geomSample 1 5 rndSample (manager0 (fun _ => OKind.rock) 2)
  exact ⟨h.2.2.2.1, h.2.2.2.2 0 5 (by norm_num) (by norm_num)⟩

/-- Invariant of every state reachable through the player's interface:
the lateral position is a 0.3-multiple within ten steps of center, the
tilt is within `[-0.2, 0.2]`, the mesh exists and the stored collider is
fresh (it equals the collider recomputed from the current pose). -/
def PInv (g : Geom) (p : Player) : Prop :=
  (∃ k : ℤ, p.posX = 3/10 * (k : ℚ) ∧ -10 ≤ k ∧ k ≤ 10) ∧
  (-(2/10) ≤ p.rotZ ∧ p.rotZ ≤ 2/10) ∧
  p.hasMesh = true ∧
  p.collider = some (playerColliderBox g p)

theorem PInv_player0 (g : Geom) : PInv g (player0 g) := by
  refine ⟨⟨0, ?_, by norm_num, by norm_num⟩,
    ⟨by show -(2/10 : ℚ) ≤ (0 : ℚ); norm_num, by show (0 : ℚ) ≤ 2/10; norm_num⟩,
    rfl, rfl⟩
  show (0 : ℚ) = 3/10 * ((0 : ℤ) : ℚ)
  norm_num

theorem PInv_jump (g : Geom) (p : Player) (h : PInv g p) : PInv g p.jump := by
  obtain ⟨hl, ht, hm, hc⟩ := h
  unfold Player.jump
  split_ifs <;> exact ⟨hl, ht, hm, hc⟩

/-- The tilt decay of `returnToCenter` as a function of the tilt alone. -/
def rcZ (z : ℚ) : ℚ :=
  if z > 1/100 then z - 1/100 else if z < -(1/100) then z + 1/100 else 0

theorem returnToCenter_rotZ (p : Player) : p.returnToCenter.rotZ = rcZ p.rotZ := by
  unfold Player.returnToCenter rcZ
  split_ifs <;> rfl

theorem rcZ_bound (z : ℚ) (h1 : -(2/10) ≤ z) (h2 : z ≤ 2/10) :
    -(2/10) ≤ rcZ z ∧ rcZ z ≤ 2/10 := by
  unfold rcZ
  split_ifs <;> constructor <;> linarith

theorem update_posX (g : Geom) (p : Player) : (p.update g).posX = p.posX := by
  simp only [Player.update, Player.updateCollider, Player.returnToCenter,
    Player.animateRunning]
  split_ifs <;> rfl

theorem update_hasMesh (g : Geom) (p : Player) : (p.update g).hasMesh = p.hasMesh := by
  simp only [Player.update, Player.updateCollider, Player.returnToCenter,
    Player.animateRunning]
  split_ifs <;> rfl

theorem update_rotZ (g : Geom) (p : Player) : (p.update g).rotZ = rcZ p.rotZ := by
  simp only [Player.update]
  rw [show ∀ q : Player, (q.updateCollider g).rotZ = q.rotZ from fun _ => rfl,
    returnToCenter_rotZ]
  congr 1
  simp only [Player.animateRunning]
  split_ifs <;> rfl

theorem PInv_update (g : Geom) (p : Player) (h : PInv g p) : PInv g (p.update g) := by
  obtain ⟨⟨k, hk, hkl, hkh⟩, ⟨ht1, ht2⟩, hm, _⟩ := h
  refine ⟨⟨k, ?_, hkl, hkh⟩, ?_, ?_, rfl⟩
  · rw [update_posX]
    exact hk
  · rw [update_rotZ]
    exact rcZ_bound p.rotZ ht1 ht2
  · rw [update_hasMesh]
    exact hm

theorem PInv_moveLeft (g : Geom) (p : Player) (h : PInv g p) : PInv g (p.moveLeft g) := by
  obtain ⟨⟨k, hk, hkl, hkh⟩, ⟨ht1, ht2⟩, hm, hc⟩ := h
  unfold Player.moveLeft
  split_ifs with hg
  · have hkq : (-10 : ℚ) < (k : ℚ) := by
      rw [hk] at hg
      unfold maxLateralPosition at hg
      linarith
    have hkz : -10 < k := by exact_mod_cast hkq
    refine ⟨⟨k - 1, ?_, by omega, by omega⟩, ⟨?_, ?_⟩, hm, rfl⟩
    · show p.posX - lateralSpeed = 3/10 * ((k - 1 : ℤ) : ℚ)
      rw [hk]
      unfold lateralSpeed
      push_cast
      ring
    · show -(2/10) ≤ min (p.rotZ + 5/100) (2/10)
      exact le_min (by linarith) (by norm_num)
    · show min (p.rotZ + 5/100) (2/10) ≤ 2/10
      exact min_le_right _ _
  · exact ⟨⟨k, hk, hkl, hkh⟩, ⟨ht1, ht2⟩, hm, hc⟩

theorem PInv_moveRight (g : Geom) (p : Player) (h : PInv g p) : PInv g (p.moveRight g) := by
  obtain ⟨⟨k, hk, hkl, hkh⟩, ⟨ht1, ht2⟩, hm, hc⟩ := h
  unfold Player.moveRight
  split_ifs with hg
  · have hkq : (k : ℚ) < 10 := by
      rw [hk] at hg
      unfold maxLateralPosition at hg
      linarith
    have hkz : k < 10 := by exact_mod_cast hkq
    refine ⟨⟨k + 1, ?_, by omega, by omega⟩, ⟨?_, ?_⟩, hm, rfl⟩
    · show p.posX + lateralSpeed = 3/10 * ((k + 1 : ℤ) : ℚ)
      rw [hk]
      unfold lateralSpeed
      push_cast
      ring
    · show -(2/10) ≤ max (p.rotZ - 5/100) (-(2/10))
      exact le_max_right _ _
    · show max (p.rotZ - 5/100) (-(2/10)) ≤ 2/10
      exact max_le (by linarith) (by norm_num)
  · exact ⟨⟨k, hk, hkl, hkh⟩, ⟨ht1, ht2⟩, hm, hc⟩

theorem PInv_reset (g : Geom) (p : Player) (h : PInv g p) : PInv g (p.reset g) := by
  obtain ⟨_, _, hm, _⟩ := h
  refine ⟨⟨0, ?_, by norm_num, by norm_num⟩,
    ⟨by show -(2/10 : ℚ) ≤ (0 : ℚ); norm_num, by show (0 : ℚ) ≤ 2/10; norm_num⟩,
    hm, rfl⟩
  show (0 : ℚ) = 3/10 * ((0 : ℤ) : ℚ)
  norm_num

theorem PInv_applyPOp (g : Geom) (op : POp) (p : Player) (h : PInv g p) :
    PInv g (applyPOp g op p) := by
  cases op with
  | jump => exact PInv_jump g p h
  | update => exact PInv_update g p h
  | moveLeft => exact PInv_moveLeft g p h
  | moveRight => exact PInv_moveRight g p h
  | reset => exact PInv_reset g p h

theorem PInv_runPOps (g : Geom) (ops : List POp) (p : Player) (h : PInv g p) :
    PInv g (runPOps g ops p) := by
  induction ops generalizing p with
  | nil => exact h
  | cons op rest ih =>
    rw [runPOps, List.foldl_cons]
    exact ih _ (PInv_applyPOp g op p h)

theorem PInv_reach (g : Geom) (ops : List POp) : PInv g (runPOps g ops (player0 g)) :=
  PInv_runPOps g ops (player0 g) (PInv_player0 g)

/-- Claim C9: starting from the constructed player, the tilt angle
`mesh.rotation.z` stays in `[-0.2, 0.2]` after every sequence of interface
operations. -/
theorem C9_tilt_bound (g : Geom) (ops : List POp) :
    -(2/10 : ℚ) ≤ (runPOps g ops (player0 g)).rotZ ∧
      (runPOps g ops (player0 g)).rotZ ≤ 2/10 :=
  (PInv_reach g ops).2.1

theorem updateCollider_of_fresh (g : Geom) (p : Player)
    (h : p.collider = some (playerColliderBox g p)) : p.updateCollider g = p := by
  unfold Player.updateCollider
  rw [← h]

/-- Claim C1: on every state reachable through the player's interface,
`checkCollisions()` is a pure query — the player state it hands back
(including the collider it recomputes) is exactly the input state.  The
obstacle manager and its records are only ever read by the embedding of
`checkCollisions`/`checkObstacleCollision`, which return no manager
state at all. -/
theorem C1_checkCollisions_pure (g : Geom) (ops : List POp) (m : ObstacleManager) :
    (CollisionDetector.checkCollisions g (runPOps g ops (player0 g)) m).2
      = runPOps g ops (player0 g) := by
  obtain ⟨_, _, hm, hc⟩ := PInv_reach g ops
  set p := runPOps g ops (player0 g)
  unfold CollisionDetector.checkCollisions
  rw [if_neg]
  · show p.updateCollider g = p
    exact updateCollider_of_fresh g p hc
  · rw [hm, hc]
    simp

/-- Claim C4: from the constructed player, the lateral position stays in
`[-maxLateral, maxLateral]` under every operation sequence; a `moveLeft()`
whose resulting position would leave the bound is refused outright (the
state is unchanged, not clamped), and one whose result stays in bound moves
by exactly `lateralSpeed`; symmetrically for `moveRight()`. -/
theorem C4_lateral_clamp (g : Geom) (ops : List POp) :
    (-maxLateralPosition ≤ (runPOps g ops (player0 g)).posX ∧
      (runPOps g ops (player0 g)).posX ≤ maxLateralPosition) ∧
    ((runPOps g ops (player0 g)).posX - lateralSpeed < -maxLateralPosition →
      (runPOps g ops (player0 g)).moveLeft g = runPOps g ops (player0 g)) ∧
    (-maxLateralPosition ≤ (runPOps g ops (player0 g)).posX - lateralSpeed →
      ((runPOps g ops (player0 g)).moveLeft g).posX
        = (runPOps g ops (player0 g)).posX - lateralSpeed) ∧
    (maxLateralPosition < (runPOps g ops (player0 g)).posX + lateralSpeed →
      (runPOps g ops (player0 g)).moveRight g = runPOps g ops (player0 g)) ∧
    ((runPOps g ops (player0 g)).posX + lateralSpeed ≤ maxLateralPosition →
      ((runPOps g ops (player0 g)).moveRight g).posX
        = (runPOps g ops (player0 g)).posX + lateralSpeed) := by
  obtain ⟨⟨k, hk, hkl, hkh⟩, _, _, _⟩ := PInv_reach g ops
  set p := runPOps g ops (player0 g)
  have hql : (-10 : ℚ) ≤ (k : ℚ) := by exact_mod_cast hkl
  have hqh : ((k : ℚ)) ≤ 10 := by exact_mod_cast hkh
  refine ⟨⟨?_, ?_⟩, ?_, ?_, ?_, ?_⟩
  · rw [hk]
    unfold maxLateralPosition
    linarith
  · rw [hk]
    unfold maxLateralPosition
    linarith
  · intro hless
    have hq : (k : ℚ) < -9 := by
      rw [hk] at hless
      unfold maxLateralPosition lateralSpeed at hless
      linarith
    have hz : k < -9 := by exact_mod_cast hq
    have hxe : p.posX = -maxLateralPosition := by
      rw [hk, (by omega : k = -10)]
      unfold maxLateralPosition
      norm_num
    have hng : ¬(p.posX > -maxLateralPosition) := by
      rw [hxe]
      simp
    unfold Player.moveLeft
    rw [if_neg hng]
  · intro hge
    have hq : (-9 : ℚ) ≤ (k : ℚ) := by
      rw [hk] at hge
      unfold maxLateralPosition lateralSpeed at hge
      linarith
    have hgt : p.posX > -maxLateralPosition := by
      rw [hk]
      unfold maxLateralPosition
      linarith
    unfold Player.moveLeft
    rw [if_pos hgt]
    rfl
  · intro hmore
    have hq : (9 : ℚ) < (k : ℚ) := by
      rw [hk] at hmore
      unfold maxLateralPosition lateralSpeed at hmore
      linarith
    have hz : 9 < k := by exact_mod_cast hq
    have hxe : p.posX = maxLateralPosition := by
      rw [hk, (by omega : k = 10)]
      unfold maxLateralPosition
      norm_num
    have hng : ¬(p.posX < maxLateralPosition) := by
      rw [hxe]
      simp
    unfold Player.moveRight
    rw [if_neg hng]
  · intro hle
    have hq : (k : ℚ) ≤ 9 := by
      rw [hk] at hle
      unfold maxLateralPosition lateralSpeed at hle
      linarith
    have hlt : p.posX < maxLateralPosition := by
      rw [hk]
      unfold maxLateralPosition
      linarith
    unfold Player.moveRight
    rw [if_pos hlt]
    rfl

/-- Witness for C4: at the fresh player (lateral position 0) an in-bound
step is taken, moving by exactly `lateralSpeed`. -/
theorem C4_lateral_clamp_witness :
    ((runPOps geomSample [] (player0 geomSample)).moveLeft geomSample).posX
      = (runPOps geomSample [] (player0 geomSample)).posX - lateralSpeed :=
  (C4_lateral_clamp geomSample []).2.2.1
    (by show -maxLateralPosition ≤ (0 : ℚ) - lateralSpeed
        norm_num [maxLateralPosition, lateralSpeed])

/-- Overlap of the per-axis intervals on x, y and z simultaneously — the
spec's reading of box intersection ("no separating gap on any axis"). -/
def boxesOverlap (a b : Box3) : Prop :=
  (a.min.x ≤ b.max.x ∧ b.min.x ≤ a.max.x) ∧
  (a.min.y ≤ b.max.y ∧ b.min.y ≤ a.max.y) ∧
  (a.min.z ≤ b.max.z ∧ b.min.z ≤ a.max.z)

theorem intersectsBox_iff (a b : Box3) :
    a.intersectsBox b = true ↔ boxesOverlap a b := by
  unfold Box3.intersectsBox boxesOverlap
  simp only [Bool.and_eq_true, Bool.not_eq_true', Bool.or_eq_false_iff,
    decide_eq_false_iff_not, not_lt, gt_iff_lt]
  tauto

theorem checkObstacleCollision_spec (pb : Box3) (o : Obstacle) :
    (CollisionDetector.checkObstacleCollision pb o = true ↔
      ∃ ob, o.collider = some ob ∧ boxesOverlap pb ob) := by
  unfold CollisionDetector.checkObstacleCollision
  cases h : o.collider with
  | none => simp
  | some ob => simp [intersectsBox_iff]

theorem playerColliderBox_updateCollider (g : Geom) (p : Player) :
    playerColliderBox g (p.updateCollider g) = playerColliderBox g p := rfl

/-- Claim C5: `checkCollisions()` returns false when the player has no mesh
or no collider yet; otherwise it returns true exactly when some obstacle of
the active list carries a collider box overlapping the player's freshly
recomputed collider box on all three axes simultaneously. -/
theorem C5_checkCollisions_semantics (g : Geom) (p : Player) (m : ObstacleManager) :
    ((p.hasMesh = false ∨ p.collider = none) →
      (CollisionDetector.checkCollisions g p m).1 = false) ∧
    (p.hasMesh = true → ∀ b, p.collider = some b →
      ((CollisionDetector.checkCollisions g p m).1 = true ↔
        ∃ o ∈ m.activeObstacles, ∃ ob, o.collider = some ob ∧
          boxesOverlap (playerColliderBox g p) ob)) := by
  constructor
  · intro h
    rcases h with h | h <;> simp [CollisionDetector.checkCollisions, h]
  · intro hm b hb
    have hcond : ¬((!p.hasMesh || p.collider.isNone) = true) := by
      rw [hm, hb]
      simp
    unfold CollisionDetector.checkCollisions
    rw [if_neg hcond]
    show m.activeObstacles.any _ = true ↔ _
    rw [List.any_eq_true]
    constructor
    · rintro ⟨o, ho, hco⟩
      exact ⟨o, ho, (checkObstacleCollision_spec _ o).1 hco⟩
    · rintro ⟨o, ho, hx⟩
      exact ⟨o, ho, (checkObstacleCollision_spec _ o).2 hx⟩

/-- A manager with an empty active list, for closed evaluations. -/
def mWitness : ObstacleManager := manager0 (fun _ => OKind.rock) 2

/-- Witness for C5 at the constructed player (mesh and collider present). -/
theorem C5_checkCollisions_semantics_witness :
    (CollisionDetector.checkCollisions geomSample (player0 geomSample) mWitness).1 = true ↔
      ∃ o ∈ mWitness.activeObstacles, ∃ ob, o.collider = some ob ∧
        boxesOverlap (playerColliderBox geomSample (player0 geomSample)) ob :=
  (C5_checkCollisions_semantics geomSample (player0 geomSample) mWitness).2 rfl
    (playerColliderBox geomSample (player0 geomSample)) rfl

/-- Claim C10: an active obstacle whose collider is still null is treated as
non-colliding — its per-obstacle check returns false — and removing it from
anywhere in the active list does not change the result of
`checkCollisions()`, so it never masks a collision with another obstacle. -/
theorem C10_null_collider_tolerated (g : Geom) (p : Player) (m : ObstacleManager)
    (o : Obstacle) (l1 l2 : List Obstacle) (h : o.collider = none) :
    (∀ b : Box3, CollisionDetector.checkObstacleCollision b o = false) ∧
    (CollisionDetector.checkCollisions g p
        { m with activeObstacles := l1 ++ o :: l2 }).1
      = (CollisionDetector.checkCollisions g p
        { m with activeObstacles := l1 ++ l2 }).1 := by
  have hfo : ∀ b : Box3, CollisionDetector.checkObstacleCollision b o = false := by
    intro b
    unfold CollisionDetector.checkObstacleCollision
    rw [h]
  refine ⟨hfo, ?_⟩
  unfold CollisionDetector.checkCollisions
  split_ifs
  · rfl
  · show (l1 ++ o :: l2).any _ = (l1 ++ l2).any _
    simp [List.any_append, List.any_cons, hfo]

/-- An obstacle record fresh out of `createObstacle` (collider still null). -/
def oNull : Obstacle := mkObstacle OKind.rock 99

/-- Witness for C10: inserting a collider-less obstacle into the active list
leaves the collision result unchanged. -/
theorem C10_null_collider_tolerated_witness :
    (CollisionDetector.checkCollisions geomSample (player0 geomSample)
        { mWitness with activeObstacles := [] ++ oNull :: [] }).1
      = (CollisionDetector.checkCollisions geomSample (player0 geomSample)
        { mWitness with activeObstacles := [] ++ [] }).1 :=
  (C10_null_collider_tolerated geomSample (player0 geomSample) mWitness oNull [] [] rfl).2

theorem updateObstacleCollider_oid (g : Geom) (o : Obstacle) :
    (updateObstacleCollider g o).oid = o.oid := rfl

/-- Conservation invariant of the obstacle manager: the ghost identifiers of
the pooled and active records together are a permutation of
`0, …, totalCreated - 1` — every record ever created sits in exactly one of
the two sets. -/
def MInv (m : ObstacleManager) : Prop :=
  ((m.obstaclePool ++ m.activeObstacles).map Obstacle.oid).Perm
    (List.range m.totalCreated)

theorem MInv_manager0 (kinds : ℕ → OKind) (i0 : ℚ) : MInv (manager0 kinds i0) := by
  unfold MInv manager0
  simp only [List.append_nil]
  have hmm : ((List.range 10).map (fun n => mkObstacle (kinds n) n)).map Obstacle.oid
      = (List.range 10).map (fun n => n) := by
    rw [List.map_map]
    rfl
  rw [hmm, List.map_id']

theorem perm_rotate {α : Type _} (A B : List α) (c : α) :
    (A ++ (B ++ [c])).Perm ((A ++ [c]) ++ B) := by
  have h1 : (A ++ (B ++ [c])) = (A ++ B) ++ [c] := by rw [List.append_assoc]
  have h2 : ((A ++ B) ++ [c]).Perm (c :: (A ++ B)) := List.perm_append_singleton _ _
  have h3 : (c :: (A ++ B)).Perm (A ++ c :: B) := List.perm_middle.symm
  have h4 : A ++ c :: B = (A ++ [c]) ++ B := by
    rw [List.append_assoc]
    rfl
  rw [h1, ← h4]
  exact h2.trans h3

theorem spawnObstacle_MInv (g : Geom) (r : SpawnRnd) (m : ObstacleManager)
    (h : MInv m) : MInv (m.spawnObstacle g r) := by
  unfold MInv at h ⊢
  unfold ObstacleManager.spawnObstacle
  rcases List.eq_nil_or_concat m.obstaclePool with hp | ⟨ys, y, hp⟩
  · rw [hp] at h ⊢
    simp only [List.getLast?_nil]
    simp only [List.nil_append] at h
    simp only [List.nil_append, List.map_append, List.map_cons, List.map_nil,
      updateObstacleCollider_oid, List.range_succ]
    exact h.append_right _
  · rw [List.concat_eq_append] at hp
    rw [hp] at h ⊢
    simp only [List.getLast?_concat, List.dropLast_concat]
    refine List.Perm.trans ?_ h
    simp only [List.map_append, List.map_cons, List.map_nil,
      updateObstacleCollider_oid]
    exact perm_rotate _ _ _

theorem sweepActive_oids (g : Geom) (speed : ℚ) (l : List Obstacle) :
    (((sweepActive g speed l).1 ++ (sweepActive g speed l).2).map Obstacle.oid).Perm
      (l.map Obstacle.oid) := by
  induction l with
  | nil => simp [sweepActive]
  | cons o rest ih =>
    rw [sweepActive]
    rcases hsr : sweepActive g speed rest with ⟨act, pooled⟩
    rw [hsr] at ih
    simp only [List.map_append] at ih
    simp only
    split_ifs
    · simp only [List.map_append, List.map_cons, List.map_nil,
        updateObstacleCollider_oid]
      rw [← List.append_assoc]
      exact (List.perm_append_singleton _ _).trans (ih.cons _)
    · simp only [List.map_append, List.map_cons, List.map_nil,
        updateObstacleCollider_oid]
      exact ih.cons _

theorem sweep_step_MInv (g : Geom) (q : ObstacleManager) (h : MInv q) :
    MInv { q with
      activeObstacles := (sweepActive g q.speed q.activeObstacles).1,
      obstaclePool := q.obstaclePool ++ (sweepActive g q.speed q.activeObstacles).2 } := by
  unfold MInv at h ⊢
  simp only [List.map_append] at h ⊢
  have hsw := sweepActive_oids g q.speed q.activeObstacles
  simp only [List.map_append] at hsw
  refine List.Perm.trans ?_ h
  rw [List.append_assoc]
  exact List.Perm.append_left _ (List.perm_append_comm.trans hsw)

theorem update_MInv (g : Geom) (dt score : ℚ) (r : SpawnRnd) (m : ObstacleManager)
    (h : MInv m) : MInv (m.update g dt score r) := by
  unfold ObstacleManager.update
  dsimp only
  split_ifs with hs
  · exact sweep_step_MInv g _ (spawnObstacle_MInv g r _ h)
  · exact sweep_step_MInv g _ h

theorem reset_MInv (i : ℚ) (m : ObstacleManager) (h : MInv m) : MInv (m.reset i) := by
  unfold MInv at h ⊢
  unfold ObstacleManager.reset
  simp only [List.append_nil, List.map_append, List.map_map]
  have hdeact : (m.activeObstacles.map
        (Obstacle.oid ∘ fun o => { o with visible := false, active := false }))
      = m.activeObstacles.map Obstacle.oid := rfl
  rw [hdeact]
  simpa [List.map_append] using h

theorem applyMOp_MInv (g : Geom) (op : MOp) (m : ObstacleManager) (h : MInv m) :
    MInv (applyMOp g op m) := by
  cases op with
  | update dt score r => exact update_MInv g dt score r m h
  | reset i => exact reset_MInv i m h

theorem runMOps_MInv (g : Geom) (ops : List MOp) (m : ObstacleManager) (h : MInv m) :
    MInv (runMOps g ops m) := by
  induction ops generalizing m with
  | nil => exact h
  | cons op rest ih =>
    rw [runMOps, List.foldl_cons]
    exact ih _ (applyMOp_MInv g op m h)

theorem MInv_reach (g : Geom) (kinds : ℕ → OKind) (i0 : ℚ) (ops : List MOp) :
    MInv (runMOps g ops (manager0 kinds i0)) :=
  runMOps_MInv g ops (manager0 kinds i0) (MInv_manager0 kinds i0)

/-- Claim C2: after every sequence of `update`/`reset` calls from the
constructed manager, the ghost identifiers of pool plus active list are a
permutation of `0, …, totalCreated - 1`; hence
`|pool| + |active| = totalCreatedEver`, and no record sits in both sets. -/
theorem C2_pool_conservation (g : Geom) (kinds : ℕ → OKind) (i0 : ℚ) (ops : List MOp) :
    ((((runMOps g ops (manager0 kinds i0)).obstaclePool
          ++ (runMOps g ops (manager0 kinds i0)).activeObstacles).map Obstacle.oid).Perm
        (List.range (runMOps g ops (manager0 kinds i0)).totalCreated)) ∧
    ((runMOps g ops (manager0 kinds i0)).obstaclePool.length
        + (runMOps g ops (manager0 kinds i0)).activeObstacles.length
      = (runMOps g ops (manager0 kinds i0)).totalCreated) ∧
    (∀ a ∈ (runMOps g ops (manager0 kinds i0)).obstaclePool,
      ∀ b ∈ (runMOps g ops (manager0 kinds i0)).activeObstacles, a.oid ≠ b.oid) := by
  have h := MInv_reach g kinds i0 ops
  set m := runMOps g ops (manager0 kinds i0)
  unfold MInv at h
  refine ⟨h, ?_, ?_⟩
  · have hlen := h.length_eq
    simpa [List.length_append, List.length_map, List.length_range] using hlen
  · have hnd : ((m.obstaclePool ++ m.activeObstacles).map Obstacle.oid).Nodup :=
      h.nodup_iff.mpr (List.nodup_range _)
    rw [List.map_append] at hnd
    have hdisj := (List.nodup_append.mp hnd).2.2
    intro a ha b hb heq
    have h1 : a.oid ∈ m.obstaclePool.map Obstacle.oid := List.mem_map_of_mem _ ha
    have h2 : a.oid ∈ m.activeObstacles.map Obstacle.oid := by
      rw [heq]
      exact List.mem_map_of_mem _ hb
    exact hdisj h1 h2
